import Mathlib

/-!
Verification of the authorization core of the project-management server.

The data model follows src/shared/schema.ts; the per-route inline
authorization checks follow src/server/routes.ts; the admin bootstrap
follows src/server/storage.ts.  The auth middleware module
(src/server/auth-middleware) is imported by routes.ts but its source is
not in the repository snapshot, so the middleware guards are modelled
from the specification (section 4.1) and are marked as such in their
doc comments.

Storage lookups may fail (the route handlers wrap every storage call in
try/catch and answer 500 on a thrown error), so every lookup is embedded
as `Except Unit (...)`: `Except.error ()` is a thrown storage error and
propagates to the catch block of the handler, which yields the
`evaluationFailed` (500-equivalent) decision.
-/

namespace Encore

/-- Global role of a user account: `role` enum of the `users` table. -/
inductive GlobalRole
  | admin
  | manager
  | user
deriving DecidableEq, Repr

/-- Project-scoped role: `role` enum of the `project_members` table. -/
inductive MemberRole
  | owner
  | manager
  | member
deriving DecidableEq, Repr

/-- A row of the `users` table (fields relevant to authorization). -/
structure User where
  id : String
  email : String
  password : String
  name : String
  role : GlobalRole
deriving DecidableEq, Repr

/-- A row of the `projects` table. -/
structure Project where
  id : String
  name : String
  description : Option String
  ownerId : String
  color : String
deriving DecidableEq, Repr

/-- A row of the `boards` table. -/
structure Board where
  id : String
  name : String
  description : Option String
  projectId : String
  position : Int
deriving DecidableEq, Repr

/-- A row of the `tasks` table (fields relevant to authorization). -/
structure Task where
  id : String
  title : String
  description : Option String
  boardId : String
  assigneeId : Option String
  createdById : String
  position : Int
deriving DecidableEq, Repr

/-- A row of the `project_members` table. -/
structure ProjectMember where
  id : String
  projectId : String
  userId : String
  role : MemberRole
deriving DecidableEq, Repr

/-- Outcome of a protected request, the decision taxonomy of the spec:
`allow` is a 2xx (the handler reached the storage mutation / returned the
resource), `deny` a 403, `notFound` a 404, `evaluationFailed` a 500
(a storage lookup threw and the catch block of the handler answered). -/
inductive Decision
  | allow
  | deny
  | notFound
  | evaluationFailed
deriving DecidableEq, Repr

/-- The storage interface as the route handlers see it
(src/server/storage.ts IStorage): each lookup may return a value or
throw.  `Except.error ()` models a thrown storage error. -/
structure FStore where
  getProject : String → Except Unit (Option Project)
  getBoard : String → Except Unit (Option Board)
  getTask : String → Except Unit (Option Task)
  getProjectMembers : String → Except Unit (List ProjectMember)

/-- An in-memory storage state: the rows of each table. -/
structure Store where
  projects : List Project
  boards : List Board
  tasks : List Task
  members : List ProjectMember
deriving Repr

/-- `getProject` of DatabaseStorage over an in-memory state:
first row of `projects` with the given id. -/
def Store.getProject (s : Store) (id : String) : Option Project :=
  s.projects.find? (fun p => decide (p.id = id))

/-- `getBoard` of DatabaseStorage over an in-memory state. -/
def Store.getBoard (s : Store) (id : String) : Option Board :=
  s.boards.find? (fun b => decide (b.id = id))

/-- `getTask` of DatabaseStorage over an in-memory state. -/
def Store.getTask (s : Store) (id : String) : Option Task :=
  s.tasks.find? (fun t => decide (t.id = id))

/-- `getProjectMembers` of DatabaseStorage over an in-memory state:
all membership rows of the given project. -/
def Store.getProjectMembers (s : Store) (projectId : String) : List ProjectMember :=
  s.members.filter (fun m => decide (m.projectId = projectId))

/-- A never-throwing storage built from an in-memory state. -/
def Store.toF (s : Store) : FStore where
  getProject := fun id => Except.ok (s.getProject id)
  getBoard := fun id => Except.ok (s.getBoard id)
  getTask := fun id => Except.ok (s.getTask id)
  getProjectMembers := fun pid => Except.ok (s.getProjectMembers pid)

/-- The route-level try/catch: a thrown storage error becomes the
500-equivalent `evaluationFailed`; a normal result is returned as is. -/
def runHandler : Except Unit Decision → Decision
  | Except.ok d => d
  | Except.error _ => Decision.evaluationFailed

/-- Modelled from the spec: the `requireProjectAccess` middleware of
src/server/auth-middleware (not in the repository snapshot).  Spec 4.1:
look the project up (absent gives NotFound); a global admin, the
owner of the project, or any holder of a membership row may access (read)
the project; anyone else is denied. -/
def requireProjectAccess (st : FStore) (u : User) (pid : String) :
    Except Unit Decision :=
  match st.getProject pid with
  | Except.error e => Except.error e
  | Except.ok none => Except.ok Decision.notFound
  | Except.ok (some p) =>
    if u.role = GlobalRole.admin then Except.ok Decision.allow
    else if u.id = p.ownerId then Except.ok Decision.allow
    else
      match st.getProjectMembers pid with
      | Except.error e => Except.error e
      | Except.ok ms =>
        match ms.find? (fun m => decide (m.userId = u.id)) with
        | some _ => Except.ok Decision.allow
        | none => Except.ok Decision.deny

/-- Modelled from the spec: the `requireBoardAccess` middleware of
src/server/auth-middleware (not in the repository snapshot).  Spec 4.1:
look the board up (absent gives NotFound), walk up to its project
(absent gives NotFound), then the same admin / owner / member read
policy as for projects. -/
def requireBoardAccess (st : FStore) (u : User) (bid : String) :
    Except Unit Decision :=
  match st.getBoard bid with
  | Except.error e => Except.error e
  | Except.ok none => Except.ok Decision.notFound
  | Except.ok (some b) =>
    match st.getProject b.projectId with
    | Except.error e => Except.error e
    | Except.ok none => Except.ok Decision.notFound
    | Except.ok (some p) =>
      if u.role = GlobalRole.admin then Except.ok Decision.allow
      else if u.id = p.ownerId then Except.ok Decision.allow
      else
        match st.getProjectMembers b.projectId with
        | Except.error e => Except.error e
        | Except.ok ms =>
          match ms.find? (fun m => decide (m.userId = u.id)) with
          | some _ => Except.ok Decision.allow
          | none => Except.ok Decision.deny

/-- Modelled from the spec: the `requireTaskModifyAccess` middleware of
src/server/auth-middleware (not in the repository snapshot).  Spec 4.1:
resolve task, board and project (any absent gives NotFound); admin and
project owner are allowed; then the fast path — if the caller is the
`createdById` or `assigneeId` of the task, allow immediately without
consulting membership; otherwise a membership row with role owner or
manager allows, anything else is denied. -/
def requireTaskModifyAccess (st : FStore) (u : User) (tid : String) :
    Except Unit Decision :=
  match st.getTask tid with
  | Except.error e => Except.error e
  | Except.ok none => Except.ok Decision.notFound
  | Except.ok (some t) =>
    match st.getBoard t.boardId with
    | Except.error e => Except.error e
    | Except.ok none => Except.ok Decision.notFound
    | Except.ok (some b) =>
      match st.getProject b.projectId with
      | Except.error e => Except.error e
      | Except.ok none => Except.ok Decision.notFound
      | Except.ok (some p) =>
        if u.role = GlobalRole.admin then Except.ok Decision.allow
        else if u.id = p.ownerId then Except.ok Decision.allow
        else if u.id = t.createdById ∨ t.assigneeId = some u.id then
          Except.ok Decision.allow
        else
          match st.getProjectMembers b.projectId with
          | Except.error e => Except.error e
          | Except.ok ms =>
            match ms.find? (fun m => decide (m.userId = u.id)) with
            | some m =>
              if m.role = MemberRole.owner ∨ m.role = MemberRole.manager then
                Except.ok Decision.allow
              else Except.ok Decision.deny
            | none => Except.ok Decision.deny

/-- Modelled from the spec: the `requireProjectMembershipForCreation`
middleware of src/server/auth-middleware (not in the repository
snapshot).  Spec 4.1 policy table, create board row: membership
required — admin, project owner, or any membership row allows;
anyone else is denied; absent project gives NotFound. -/
def requireProjectMembershipForCreation (st : FStore) (u : User)
    (pid : String) : Except Unit Decision :=
  match st.getProject pid with
  | Except.error e => Except.error e
  | Except.ok none => Except.ok Decision.notFound
  | Except.ok (some p) =>
    if u.role = GlobalRole.admin then Except.ok Decision.allow
    else if u.id = p.ownerId then Except.ok Decision.allow
    else
      match st.getProjectMembers pid with
      | Except.error e => Except.error e
      | Except.ok ms =>
        match ms.find? (fun m => decide (m.userId = u.id)) with
        | some _ => Except.ok Decision.allow
        | none => Except.ok Decision.deny

/-- GET /api/projects/:id (src/server/routes.ts lines 48-58): after the
`requireProjectAccess` middleware, the handler re-fetches the project and
answers 404 when it is absent, otherwise returns it (2xx, `allow`). -/
def projectReadDecision (st : FStore) (u : User) (pid : String) : Decision :=
  runHandler
    (match requireProjectAccess st u pid with
     | Except.error e => Except.error e
     | Except.ok Decision.allow =>
       match st.getProject pid with
       | Except.error e => Except.error e
       | Except.ok none => Except.ok Decision.notFound
       | Except.ok (some _) => Except.ok Decision.allow
     | Except.ok d => Except.ok d)

/-- PATCH and DELETE /api/projects/:id (src/server/routes.ts lines
60-99; the authorization logic of the two handlers is identical): after the
`requireProjectAccess` middleware, the handler re-fetches the project
(404 when absent) and answers 403 unless the caller is the owner of the
project or a global admin; otherwise it performs the mutation (`allow`). -/
def projectModifyDecision (st : FStore) (u : User) (pid : String) : Decision :=
  runHandler
    (match requireProjectAccess st u pid with
     | Except.error e => Except.error e
     | Except.ok Decision.allow =>
       match st.getProject pid with
       | Except.error e => Except.error e
       | Except.ok none => Except.ok Decision.notFound
       | Except.ok (some p) =>
         if p.ownerId ≠ u.id ∧ u.role ≠ GlobalRole.admin then
           Except.ok Decision.deny
         else Except.ok Decision.allow
     | Except.ok d => Except.ok d)

/-- GET /api/projects/:projectId/boards (src/server/routes.ts lines
102-109): the `requireProjectAccess` middleware decides; the handler
itself only lists the boards. -/
def boardsListDecision (st : FStore) (u : User) (pid : String) : Decision :=
  runHandler
    (match requireProjectAccess st u pid with
     | Except.error e => Except.error e
     | Except.ok d => Except.ok d)

/-- POST /api/projects/:projectId/boards (src/server/routes.ts lines
111-123): the `requireProjectMembershipForCreation` middleware decides;
the handler itself only validates the body and inserts the board. -/
def boardCreateDecision (st : FStore) (u : User) (pid : String) : Decision :=
  runHandler
    (match requireProjectMembershipForCreation st u pid with
     | Except.error e => Except.error e
     | Except.ok d => Except.ok d)

/-- PATCH and DELETE /api/boards/:id (src/server/routes.ts lines
125-186; the authorization logic of the two handlers is identical): after the
`requireBoardAccess` middleware, the handler re-fetches the board (404
when absent) and its project (404 when absent); unless the caller is
the owner of the project or a global admin, it loads the membership list and
answers 403 when the caller has no row or a row whose role is neither
manager nor owner; otherwise it performs the mutation (`allow`). -/
def boardModifyDecision (st : FStore) (u : User) (bid : String) : Decision :=
  runHandler
    (match requireBoardAccess st u bid with
     | Except.error e => Except.error e
     | Except.ok Decision.allow =>
       match st.getBoard bid with
       | Except.error e => Except.error e
       | Except.ok none => Except.ok Decision.notFound
       | Except.ok (some b) =>
         match st.getProject b.projectId with
         | Except.error e => Except.error e
         | Except.ok none => Except.ok Decision.notFound
         | Except.ok (some p) =>
           if p.ownerId ≠ u.id ∧ u.role ≠ GlobalRole.admin then
             match st.getProjectMembers b.projectId with
             | Except.error e => Except.error e
             | Except.ok ms =>
               match ms.find? (fun m => decide (m.userId = u.id)) with
               | none => Except.ok Decision.deny
               | some memberInfo =>
                 if memberInfo.role ≠ MemberRole.manager ∧
                     memberInfo.role ≠ MemberRole.owner then
                   Except.ok Decision.deny
                 else Except.ok Decision.allow
           else Except.ok Decision.allow
     | Except.ok d => Except.ok d)

/-- GET /api/boards/:boardId/tasks (src/server/routes.ts lines 189-196):
the `requireBoardAccess` middleware decides; the handler only lists. -/
def tasksListDecision (st : FStore) (u : User) (bid : String) : Decision :=
  runHandler
    (match requireBoardAccess st u bid with
     | Except.error e => Except.error e
     | Except.ok d => Except.ok d)

/-- POST /api/boards/:boardId/tasks (src/server/routes.ts lines
198-211): the `requireBoardAccess` middleware decides; the handler only
validates the body and inserts the task. -/
def taskCreateDecision (st : FStore) (u : User) (bid : String) : Decision :=
  runHandler
    (match requireBoardAccess st u bid with
     | Except.error e => Except.error e
     | Except.ok d => Except.ok d)

/-- PATCH and DELETE /api/tasks/:id (src/server/routes.ts lines
213-232; identical authorization): the `requireTaskModifyAccess`
middleware decides; the handler performs the mutation directly. -/
def taskModifyDecision (st : FStore) (u : User) (tid : String) : Decision :=
  runHandler
    (match requireTaskModifyAccess st u tid with
     | Except.error e => Except.error e
     | Except.ok d => Except.ok d)

/-- GET /api/projects/:id/members (src/server/routes.ts lines 235-242):
the `requireProjectAccess` middleware decides; the handler only lists. -/
def membersListDecision (st : FStore) (u : User) (pid : String) : Decision :=
  runHandler
    (match requireProjectAccess st u pid with
     | Except.error e => Except.error e
     | Except.ok d => Except.ok d)

/-- POST /api/projects/:id/members and DELETE
/api/projects/:projectId/members/:userId (src/server/routes.ts lines
244-284; identical authorization, no middleware beyond requireAuth):
the handler fetches the project (404 when absent) and answers 403
unless the caller is the owner of the project or a global admin. -/
def memberManageDecision (st : FStore) (u : User) (pid : String) : Decision :=
  runHandler
    (match st.getProject pid with
     | Except.error e => Except.error e
     | Except.ok none => Except.ok Decision.notFound
     | Except.ok (some p) =>
       if p.ownerId ≠ u.id ∧ u.role ≠ GlobalRole.admin then
         Except.ok Decision.deny
       else Except.ok Decision.allow)

/-!  Admin bootstrap, src/server/storage.ts lines 266-291. -/

/-- The well-known admin email of `initializeAdmin`. -/
def adminEmail : String := "axelencore@mail.ru"

/-- `getUserByEmail` of DatabaseStorage over an in-memory user table:
first row with the given email. -/
def getUserByEmail (us : List User) (email : String) : Option User :=
  us.find? (fun u => decide (u.email = email))

/-- `createUser` of DatabaseStorage over an in-memory user table: the
insert appends the new row; the database generates the row id. -/
def createUser (us : List User) (genId : String) (u : User) : List User :=
  us ++ [{ u with id := genId }]

/-- The password-hash format of `initializeAdmin`:
`buf.toString("hex") + "." + salt`, where `buf` is the scrypt output for
the admin password under `salt`.  The scrypt computation and the random
salt are opaque inputs here (crypto primitives are out of scope). -/
def hashPassword (scryptHex salt : String) : String :=
  scryptHex ++ "." ++ salt

/-- The admin row `initializeAdmin` inserts when no user with
`adminEmail` exists (src/server/storage.ts lines 281-286); the id field
is filled in by `createUser` from the database-generated id. -/
def adminUser (genId scryptHex salt : String) : User :=
  { id := genId
    email := adminEmail
    password := hashPassword scryptHex salt
    name := "Axel Encore"
    role := GlobalRole.admin }

/-- `initializeAdmin` (src/server/storage.ts lines 266-288): look the
well-known admin email up; when absent, create the admin user with a
salted scrypt password hash; when present, do nothing.  `genId` is the
database-generated row id, `scryptHex` and `salt` the hash material of the run. -/
def initializeAdmin (genId scryptHex salt : String) (us : List User) :
    List User :=
  match getUserByEmail us adminEmail with
  | some _ => us
  | none => createUser us genId (adminUser genId scryptHex salt)

/-!  Creation requests, src/server/routes.ts lines 34-46 and 198-211.

A request body is a JSON object; only the keys `insertProjectSchema`
(resp. `insertTaskSchema`) knows survive zod validation, so the body is
modelled as those keys, each possibly absent.  The handler spreads the
body first and then writes the server-controlled keys
(`ownerId: req.user.id`, resp. `boardId: req.params.boardId` and
`createdById: req.user.id`), so the server values win over any value the
client supplied for the same key. -/

/-- The client-controllable keys of a POST /api/projects body. -/
structure ProjectBody where
  name : Option String
  description : Option String
  ownerId : Option String
  color : Option String
deriving DecidableEq, Repr

/-- The object `{ ...req.body, ownerId: req.user.id }` built by the
POST /api/projects handler (src/server/routes.ts lines 36-39). -/
def projectBodyWithOwner (b : ProjectBody) (callerId : String) :
    ProjectBody :=
  { b with ownerId := some callerId }

/-- The payload of a validated project insert (`insertProjectSchema`:
the `projects` columns without `id` and `createdAt`). -/
structure InsertProject where
  name : String
  description : Option String
  ownerId : String
  color : String
deriving DecidableEq, Repr

/-- `insertProjectSchema.parse`: `name` and `ownerId` are required
(not-null columns without a default), `description` is optional and
nullable, `color` falls back to the column default `"#8B5CF6"`.  A
missing required key makes the whole request a 400 (`none`). -/
def parseInsertProject (b : ProjectBody) : Option InsertProject :=
  match b.name, b.ownerId with
  | some n, some o =>
    some { name := n
           description := b.description
           ownerId := o
           color := b.color.getD "#8B5CF6" }
  | _, _ => none

/-- The project row `createProject` inserts for a validated payload
(src/server/storage.ts lines 129-135); the database generates the id. -/
def mkProject (genId : String) (ip : InsertProject) : Project :=
  { id := genId
    name := ip.name
    description := ip.description
    ownerId := ip.ownerId
    color := ip.color }

/-- POST /api/projects (src/server/routes.ts lines 34-46): spread the
body, override `ownerId` with the id of the authenticated caller, validate,
and insert.  Returns the stored project, or `none` on a 400. -/
def postProjectStored (u : User) (b : ProjectBody) (genId : String) :
    Option Project :=
  match parseInsertProject (projectBodyWithOwner b u.id) with
  | none => none
  | some ip => some (mkProject genId ip)

/-- The client-controllable keys of a POST /api/boards/:boardId/tasks
body (the `insertTaskSchema` columns). -/
structure TaskBody where
  title : Option String
  description : Option String
  boardId : Option String
  assigneeId : Option String
  createdById : Option String
  position : Option Int
deriving DecidableEq, Repr

/-- The object `{ ...req.body, boardId: req.params.boardId,
createdById: req.user.id }` built by the POST tasks handler
(src/server/routes.ts lines 200-204). -/
def taskBodyWithServerFields (b : TaskBody) (boardId callerId : String) :
    TaskBody :=
  { b with boardId := some boardId, createdById := some callerId }

/-- The payload of a validated task insert (`insertTaskSchema`, the
authorization-relevant columns): `title`, `boardId` and `createdById`
are required, `description` and `assigneeId` optional, `position` falls
back to the column default 0. -/
structure InsertTask where
  title : String
  description : Option String
  boardId : String
  assigneeId : Option String
  createdById : String
  position : Int
deriving DecidableEq, Repr

/-- `insertTaskSchema.parse` on the authorization-relevant columns. -/
def parseInsertTask (b : TaskBody) : Option InsertTask :=
  match b.title, b.boardId, b.createdById with
  | some ti, some bi, some ci =>
    some { title := ti
           description := b.description
           boardId := bi
           assigneeId := b.assigneeId
           createdById := ci
           position := b.position.getD 0 }
  | _, _, _ => none

/-- The task row `createTask` inserts for a validated payload
(src/server/storage.ts lines 197-206); the database generates the id. -/
def mkTask (genId : String) (it : InsertTask) : Task :=
  { id := genId
    title := it.title
    description := it.description
    boardId := it.boardId
    assigneeId := it.assigneeId
    createdById := it.createdById
    position := it.position }

/-- POST /api/boards/:boardId/tasks (src/server/routes.ts lines
198-211), after the `requireBoardAccess` middleware: spread the body,
override `boardId` and `createdById` with the server values, validate,
and insert.  Returns the stored task, or `none` on a 400. -/
def postTaskStored (u : User) (boardId : String) (b : TaskBody)
    (genId : String) : Option Task :=
  match parseInsertTask (taskBodyWithServerFields b boardId u.id) with
  | none => none
  | some it => some (mkTask genId it)

/-!  A concrete scenario used by the witnesses: Alice owns project p1
with one board b1; Bob is a member-role member and Carol a manager-role
member; Dave is a global admin with no relation to p1; Mallory is an
authenticated outsider with no membership row; task t1 was created by
Alice and is unassigned, task t2 was created by Alice and is assigned
to Mallory. -/

/-- Example user: owner of p1. -/
def userAlice : User :=
  { id := "alice", email := "alice@x", password := "pw", name := "Alice"
    role := GlobalRole.user }

/-- Example user: member-role member of p1. -/
def userBob : User :=
  { id := "bob", email := "bob@x", password := "pw", name := "Bob"
    role := GlobalRole.user }

/-- Example user: manager-role member of p1. -/
def userCarol : User :=
  { id := "carol", email := "carol@x", password := "pw", name := "Carol"
    role := GlobalRole.user }

/-- Example user: authenticated outsider, no relation to p1. -/
def userMallory : User :=
  { id := "mallory", email := "mallory@x", password := "pw", name := "Mallory"
    role := GlobalRole.user }

/-- Example user: global admin, no ownership or membership on p1. -/
def userDave : User :=
  { id := "dave", email := "dave@x", password := "pw", name := "Dave"
    role := GlobalRole.admin }

/-- Example project owned by Alice. -/
def projectP1 : Project :=
  { id := "p1", name := "P1", description := none, ownerId := "alice"
    color := "#8B5CF6" }

/-- Example board of p1. -/
def boardB1 : Board :=
  { id := "b1", name := "B1", description := none, projectId := "p1"
    position := 0 }

/-- Example task on b1, created by Alice, unassigned. -/
def taskT1 : Task :=
  { id := "t1", title := "T1", description := none, boardId := "b1"
    assigneeId := none, createdById := "alice", position := 0 }

/-- Example task on b1, created by Alice, assigned to Mallory. -/
def taskT2 : Task :=
  { id := "t2", title := "T2", description := none, boardId := "b1"
    assigneeId := some "mallory", createdById := "alice", position := 0 }

/-- Membership row: Bob is a member-role member of p1. -/
def memberBob : ProjectMember :=
  { id := "m1", projectId := "p1", userId := "bob", role := MemberRole.member }

/-- Membership row: Carol is a manager-role member of p1. -/
def memberCarol : ProjectMember :=
  { id := "m2", projectId := "p1", userId := "carol", role := MemberRole.manager }

/-- The example storage state. -/
def exampleStore : Store :=
  { projects := [projectP1]
    boards := [boardB1]
    tasks := [taskT1, taskT2]
    members := [memberBob, memberCarol] }

/-- A storage whose every lookup throws. -/
def failingStore : FStore :=
  { getProject := fun _ => Except.error ()
    getBoard := fun _ => Except.error ()
    getTask := fun _ => Except.error ()
    getProjectMembers := fun _ => Except.error () }

/-- The example storage, except that the membership lookup throws:
any decision reached on it was made without consulting membership. -/
def failingMembersStore : FStore :=
  { getProject := fun id => Except.ok (exampleStore.getProject id)
    getBoard := fun id => Except.ok (exampleStore.getBoard id)
    getTask := fun id => Except.ok (exampleStore.getTask id)
    getProjectMembers := fun _ => Except.error () }

/-- A board whose owning project is absent from `danglingStore`. -/
def boardDangling : Board :=
  { id := "b2", name := "B2", description := none, projectId := "ghost"
    position := 0 }

/-- A storage state holding a board whose project reference dangles. -/
def danglingStore : Store :=
  { projects := [], boards := [boardDangling], tasks := [], members := [] }

/-- C1 (as stated) is false on the code: the task-modification fast
path of `requireTaskModifyAccess` allows a caller who is the assignee
of a task even with no ownership, no membership row and no admin role.
Mallory is none of owner, member or admin of p1, yet an update or
delete of task t2 (which lists Mallory as assignee) is allowed. -/
theorem failClosedNonMemberCounterexample :
    userMallory.role ≠ GlobalRole.admin ∧
    userMallory.id ≠ projectP1.ownerId ∧
    ((exampleStore.getProjectMembers "p1").all
      (fun m => m.userId != userMallory.id)) = true ∧
    exampleStore.getProject "p1" = some projectP1 ∧
    exampleStore.getBoard "b1" = some boardB1 ∧
    boardB1.projectId = "p1" ∧
    exampleStore.getTask "t2" = some taskT2 ∧
    taskT2.boardId = "b1" ∧
    taskModifyDecision exampleStore.toF userMallory "t2" = Decision.allow := by
  decide

/-- C1, amended: a user who is neither the owner of project p, nor a
member of p, nor a global admin gets only Deny or NotFound from every
read/update/delete operation on p and on boards under p, and from every
task update/delete where the user is also neither the `createdById` nor
the `assigneeId` of the task; a non-member who is the creator or
assignee of a task is allowed to modify that task (see the
counterexample and C2). -/
theorem failClosedNonMember (s : Store) (u : User) (pid bid tid : String)
    (p : Project) (b : Board) (t : Task)
    (hp : s.getProject pid = some p)
    (hb : s.getBoard bid = some b)
    (hbp : b.projectId = pid)
    (ht : s.getTask tid = some t)
    (htb : t.boardId = bid)
    (hadm : u.role ≠ GlobalRole.admin)
    (hown : u.id ≠ p.ownerId)
    (hmem : ∀ m ∈ s.getProjectMembers pid, m.userId ≠ u.id)
    (hfast : u.id ≠ t.createdById ∧ t.assigneeId ≠ some u.id) :
    (projectReadDecision s.toF u pid = Decision.deny ∨
      projectReadDecision s.toF u pid = Decision.notFound) ∧
    (projectModifyDecision s.toF u pid = Decision.deny ∨
      projectModifyDecision s.toF u pid = Decision.notFound) ∧
    (boardsListDecision s.toF u pid = Decision.deny ∨
      boardsListDecision s.toF u pid = Decision.notFound) ∧
    (membersListDecision s.toF u pid = Decision.deny ∨
      membersListDecision s.toF u pid = Decision.notFound) ∧
    (boardModifyDecision s.toF u bid = Decision.deny ∨
      boardModifyDecision s.toF u bid = Decision.notFound) ∧
    (tasksListDecision s.toF u bid = Decision.deny ∨
      tasksListDecision s.toF u bid = Decision.notFound) ∧
    (taskModifyDecision s.toF u tid = Decision.deny ∨
      taskModifyDecision s.toF u tid = Decision.notFound) := by
  have hfind : (s.getProjectMembers pid).find?
      (fun m => decide (m.userId = u.id)) = none :=
    List.find?_eq_none.mpr (by intro x hx; simpa using hmem x hx)
  have hf : ¬(u.id = t.createdById ∨ t.assigneeId = some u.id) := by
    rintro (h | h)
    · exact hfast.1 h
    · exact hfast.2 h
  refine ⟨Or.inl ?_, Or.inl ?_, Or.inl ?_, Or.inl ?_, Or.inl ?_, Or.inl ?_,
    Or.inl ?_⟩
  · simp [projectReadDecision, requireProjectAccess, Store.toF, hp, hadm, hown,
      hfind, runHandler]
  · simp [projectModifyDecision, requireProjectAccess, Store.toF, hp, hadm,
      hown, hfind, runHandler]
  · simp [boardsListDecision, requireProjectAccess, Store.toF, hp, hadm, hown,
      hfind, runHandler]
  · simp [membersListDecision, requireProjectAccess, Store.toF, hp, hadm, hown,
      hfind, runHandler]
  · simp [boardModifyDecision, requireBoardAccess, Store.toF, hb, hbp, hp,
      hadm, hown, hfind, runHandler]
  · simp [tasksListDecision, requireBoardAccess, Store.toF, hb, hbp, hp, hadm,
      hown, hfind, runHandler]
  · simp [taskModifyDecision, requireTaskModifyAccess, Store.toF, ht, htb, hb,
      hbp, hp, hadm, hown, hf, hfind, runHandler]

/-- Witness for the amended C1: Mallory (no ownership, no membership,
not admin, not creator or assignee of t1) is denied everywhere. -/
theorem failClosedNonMemberWitness :
    (projectReadDecision exampleStore.toF userMallory "p1" = Decision.deny ∨
      projectReadDecision exampleStore.toF userMallory "p1" = Decision.notFound) ∧
    (projectModifyDecision exampleStore.toF userMallory "p1" = Decision.deny ∨
      projectModifyDecision exampleStore.toF userMallory "p1" = Decision.notFound) ∧
    (boardsListDecision exampleStore.toF userMallory "p1" = Decision.deny ∨
      boardsListDecision exampleStore.toF userMallory "p1" = Decision.notFound) ∧
    (membersListDecision exampleStore.toF userMallory "p1" = Decision.deny ∨
      membersListDecision exampleStore.toF userMallory "p1" = Decision.notFound) ∧
    (boardModifyDecision exampleStore.toF userMallory "b1" = Decision.deny ∨
      boardModifyDecision exampleStore.toF userMallory "b1" = Decision.notFound) ∧
    (tasksListDecision exampleStore.toF userMallory "b1" = Decision.deny ∨
      tasksListDecision exampleStore.toF userMallory "b1" = Decision.notFound) ∧
    (taskModifyDecision exampleStore.toF userMallory "t1" = Decision.deny ∨
      taskModifyDecision exampleStore.toF userMallory "t1" = Decision.notFound) :=
  failClosedNonMember exampleStore userMallory "p1" "b1" "t1"
    projectP1 boardB1 taskT1 (by decide) (by decide) (by decide) (by decide)
    (by decide) (by decide) (by decide) (by decide) (by decide)

/-- C2: a caller equal to the `createdById` or the `assigneeId` of a
task may update or delete it whenever the task resolves through its
board to an existing project, for ANY behaviour of the membership
lookup — no hypothesis constrains `getProjectMembers`, so the decision
is reached without consulting the membership list, regardless of any
membership role the caller may or may not hold. -/
theorem taskFastPathAllows (st : FStore) (u : User) (tid : String)
    (t : Task) (b : Board) (p : Project)
    (ht : st.getTask tid = Except.ok (some t))
    (hb : st.getBoard t.boardId = Except.ok (some b))
    (hp : st.getProject b.projectId = Except.ok (some p))
    (hfast : u.id = t.createdById ∨ t.assigneeId = some u.id) :
    taskModifyDecision st u tid = Decision.allow := by
  simp only [taskModifyDecision, requireTaskModifyAccess, ht, hb, hp]
  by_cases hadm : u.role = GlobalRole.admin
  · simp [hadm, runHandler]
  · by_cases hown : u.id = p.ownerId
    · simp [hadm, hown, runHandler]
    · simp [hadm, hown, hfast, runHandler]

/-- Witness for C2: Mallory is the assignee of t2 and is allowed to
modify it on a storage whose membership lookup always throws — the
membership list was provably never consulted. -/
theorem taskFastPathWitness :
    taskModifyDecision failingMembersStore userMallory "t2" = Decision.allow :=
  taskFastPathAllows failingMembersStore userMallory "t2" taskT2 boardB1
    projectP1 rfl rfl rfl (Or.inr rfl)

/-- C3: for an existing board whose project exists, and a caller with
at most one membership row on that project, update/delete of the board
is allowed exactly for a global admin, the project owner, or a member
whose role is owner or manager; the decision is otherwise a 403 Deny —
in particular for a member-role member. -/
theorem boardModifyPolicy (s : Store) (u : User) (bid : String)
    (b : Board) (p : Project)
    (hb : s.getBoard bid = some b)
    (hp : s.getProject b.projectId = some p)
    (huniq : ∀ m1 ∈ s.getProjectMembers b.projectId,
       ∀ m2 ∈ s.getProjectMembers b.projectId,
       m1.userId = u.id → m2.userId = u.id → m1 = m2) :
    (boardModifyDecision s.toF u bid = Decision.allow ↔
      (u.role = GlobalRole.admin ∨ u.id = p.ownerId ∨
       ∃ m ∈ s.getProjectMembers b.projectId, m.userId = u.id ∧
         (m.role = MemberRole.owner ∨ m.role = MemberRole.manager))) ∧
    (∀ m ∈ s.getProjectMembers b.projectId, m.userId = u.id →
      m.role = MemberRole.member → u.role ≠ GlobalRole.admin →
      u.id ≠ p.ownerId → boardModifyDecision s.toF u bid = Decision.deny) := by
  constructor
  · by_cases hadm : u.role = GlobalRole.admin
    · simp [boardModifyDecision, requireBoardAccess, Store.toF, hb, hp, hadm,
        runHandler]
    · by_cases hown : u.id = p.ownerId
      · simp [boardModifyDecision, requireBoardAccess, Store.toF, hb, hp, hadm,
          hown, runHandler]
      · rcases hfind : (s.getProjectMembers b.projectId).find?
            (fun m => decide (m.userId = u.id)) with _ | m0
        · have hnomem : ∀ m ∈ s.getProjectMembers b.projectId,
              ¬(m.userId = u.id) := by
            simpa using List.find?_eq_none.mp hfind
          have hrhs : ¬(u.role = GlobalRole.admin ∨ u.id = p.ownerId ∨
              ∃ m ∈ s.getProjectMembers b.projectId, m.userId = u.id ∧
                (m.role = MemberRole.owner ∨ m.role = MemberRole.manager)) := by
            rintro (h | h | ⟨m, hm, hmu, _⟩)
            · exact hadm h
            · exact hown h
            · exact hnomem m hm hmu
          simp [boardModifyDecision, requireBoardAccess, Store.toF, hb, hp,
            hadm, hown, hfind, runHandler, hrhs]
          intro x hx hxu
          exact absurd hxu (hnomem x hx)
        · have hm0mem := List.mem_of_find?_eq_some hfind
          have hm0u : m0.userId = u.id := by simpa using List.find?_some hfind
          have hne : p.ownerId ≠ u.id := fun h => hown h.symm
          by_cases hrole : m0.role = MemberRole.manager ∨ m0.role = MemberRole.owner
          · have hcond : ¬(m0.role ≠ MemberRole.manager ∧
                m0.role ≠ MemberRole.owner) := by
              rcases hrole with h | h
              · exact fun hc => hc.1 h
              · exact fun hc => hc.2 h
            simp [boardModifyDecision, requireBoardAccess, Store.toF, hb, hp,
              hadm, hown, hfind, runHandler, hne, hcond]
            exact ⟨m0, hm0mem, hm0u, hrole.symm⟩
          · push_neg at hrole
            simp [boardModifyDecision, requireBoardAccess, Store.toF, hb, hp,
              hadm, hown, hfind, runHandler, hne, hrole.1, hrole.2]
            intro x hx hxu
            have hxm0 : x = m0 := huniq x hx m0 hm0mem hxu hm0u
            subst hxm0
            exact ⟨hrole.2, hrole.1⟩
  · intro m hm hmu hrolem hadm hown
    have hne : p.ownerId ≠ u.id := fun h => hown h.symm
    rcases hfind : (s.getProjectMembers b.projectId).find?
        (fun m => decide (m.userId = u.id)) with _ | m0
    · exact absurd hmu (by simpa using List.find?_eq_none.mp hfind m hm)
    · have hm0mem := List.mem_of_find?_eq_some hfind
      have hm0u : m0.userId = u.id := by simpa using List.find?_some hfind
      have hmm0 : m = m0 := huniq m hm m0 hm0mem hmu hm0u
      have hr0 : m0.role = MemberRole.member := hmm0 ▸ hrolem
      simp [boardModifyDecision, requireBoardAccess, Store.toF, hb, hp, hadm,
        hown, hfind, runHandler, hne, hr0]

/-- Witness for C3: Carol (manager-role member) may modify board b1,
Bob (member-role member) is denied. -/
theorem boardModifyPolicyWitness :
    boardModifyDecision exampleStore.toF userCarol "b1" = Decision.allow ∧
    boardModifyDecision exampleStore.toF userBob "b1" = Decision.deny := by
  constructor
  · exact (boardModifyPolicy exampleStore userCarol "b1" boardB1 projectP1
      (by decide) (by decide) (by decide)).1.mpr
      (Or.inr (Or.inr ⟨memberCarol, by decide, rfl, Or.inr rfl⟩))
  · exact (boardModifyPolicy exampleStore userBob "b1" boardB1 projectP1
      (by decide) (by decide) (by decide)).2 memberBob (by decide) rfl rfl
      (by decide) (by decide)

/-- C4: for an existing project, update/delete is allowed exactly for
the project owner or a global admin; any other caller — in particular
every project member who is not the owner, whatever the member role —
receives a 403 Deny. -/
theorem projectModifyPolicy (s : Store) (u : User) (pid : String)
    (p : Project) (hp : s.getProject pid = some p) :
    (projectModifyDecision s.toF u pid = Decision.allow ↔
      (u.id = p.ownerId ∨ u.role = GlobalRole.admin)) ∧
    (∀ m ∈ s.getProjectMembers pid, m.userId = u.id →
      u.id ≠ p.ownerId → u.role ≠ GlobalRole.admin →
      projectModifyDecision s.toF u pid = Decision.deny) := by
  constructor
  · by_cases hadm : u.role = GlobalRole.admin
    · simp [projectModifyDecision, requireProjectAccess, Store.toF, hp, hadm,
        runHandler]
    · by_cases hown : u.id = p.ownerId
      · simp [projectModifyDecision, requireProjectAccess, Store.toF, hp, hadm,
          hown, runHandler]
      · rcases hfind : (s.getProjectMembers pid).find?
            (fun m => decide (m.userId = u.id)) with _ | m0
        · simp [projectModifyDecision, requireProjectAccess, Store.toF, hp,
            hadm, hown, hfind, runHandler]
        · have hne : p.ownerId ≠ u.id := fun h => hown h.symm
          simp [projectModifyDecision, requireProjectAccess, Store.toF, hp,
            hadm, hown, hfind, runHandler, hne]
  · intro m hm hmu hown hadm
    have hne : p.ownerId ≠ u.id := fun h => hown h.symm
    rcases hfind : (s.getProjectMembers pid).find?
        (fun m => decide (m.userId = u.id)) with _ | m0
    · exact absurd hmu (by simpa using List.find?_eq_none.mp hfind m hm)
    · simp [projectModifyDecision, requireProjectAccess, Store.toF, hp, hadm,
        hown, hfind, runHandler, hne]

/-- Witness for C4: Alice (owner) may modify p1; Carol, a manager-role
member who is not the owner, is denied. -/
theorem projectModifyPolicyWitness :
    projectModifyDecision exampleStore.toF userAlice "p1" = Decision.allow ∧
    projectModifyDecision exampleStore.toF userCarol "p1" = Decision.deny := by
  constructor
  · exact (projectModifyPolicy exampleStore userAlice "p1" projectP1
      (by decide)).1.mpr (Or.inl rfl)
  · exact (projectModifyPolicy exampleStore userCarol "p1" projectP1
      (by decide)).2 memberCarol (by decide) rfl (by decide) (by decide)

/-- C5: a global admin is allowed every modelled operation on every
resource whose reference chain resolves, with no ownership and no
membership row required. -/
theorem adminUniversalAccess (st : FStore) (u : User)
    (pid bid tid : String) (p pb tp : Project) (b tb : Board) (t : Task)
    (hadm : u.role = GlobalRole.admin)
    (hp : st.getProject pid = Except.ok (some p))
    (hb : st.getBoard bid = Except.ok (some b))
    (hpb : st.getProject b.projectId = Except.ok (some pb))
    (ht : st.getTask tid = Except.ok (some t))
    (htb : st.getBoard t.boardId = Except.ok (some tb))
    (htp : st.getProject tb.projectId = Except.ok (some tp)) :
    projectReadDecision st u pid = Decision.allow ∧
    projectModifyDecision st u pid = Decision.allow ∧
    boardsListDecision st u pid = Decision.allow ∧
    boardCreateDecision st u pid = Decision.allow ∧
    membersListDecision st u pid = Decision.allow ∧
    memberManageDecision st u pid = Decision.allow ∧
    boardModifyDecision st u bid = Decision.allow ∧
    tasksListDecision st u bid = Decision.allow ∧
    taskCreateDecision st u bid = Decision.allow ∧
    taskModifyDecision st u tid = Decision.allow := by
  refine ⟨?_, ?_, ?_, ?_, ?_, ?_, ?_, ?_, ?_, ?_⟩
  · simp [projectReadDecision, requireProjectAccess, hp, hadm, runHandler]
  · simp [projectModifyDecision, requireProjectAccess, hp, hadm, runHandler]
  · simp [boardsListDecision, requireProjectAccess, hp, hadm, runHandler]
  · simp [boardCreateDecision, requireProjectMembershipForCreation, hp, hadm,
      runHandler]
  · simp [membersListDecision, requireProjectAccess, hp, hadm, runHandler]
  · simp [memberManageDecision, hp, hadm, runHandler]
  · simp [boardModifyDecision, requireBoardAccess, hb, hpb, hadm, runHandler]
  · simp [tasksListDecision, requireBoardAccess, hb, hpb, hadm, runHandler]
  · simp [taskCreateDecision, requireBoardAccess, hb, hpb, hadm, runHandler]
  · simp [taskModifyDecision, requireTaskModifyAccess, ht, htb, htp, hadm,
      runHandler]

/-- Witness for C5: Dave, a global admin unrelated to p1, is allowed
every operation, including deleting the board of p1. -/
theorem adminUniversalAccessWitness :
    projectReadDecision exampleStore.toF userDave "p1" = Decision.allow ∧
    projectModifyDecision exampleStore.toF userDave "p1" = Decision.allow ∧
    boardsListDecision exampleStore.toF userDave "p1" = Decision.allow ∧
    boardCreateDecision exampleStore.toF userDave "p1" = Decision.allow ∧
    membersListDecision exampleStore.toF userDave "p1" = Decision.allow ∧
    memberManageDecision exampleStore.toF userDave "p1" = Decision.allow ∧
    boardModifyDecision exampleStore.toF userDave "b1" = Decision.allow ∧
    tasksListDecision exampleStore.toF userDave "b1" = Decision.allow ∧
    taskCreateDecision exampleStore.toF userDave "b1" = Decision.allow ∧
    taskModifyDecision exampleStore.toF userDave "t1" = Decision.allow :=
  adminUniversalAccess exampleStore.toF userDave "p1" "b1" "t1"
    projectP1 projectP1 projectP1 boardB1 boardB1 taskT1
    rfl rfl rfl rfl rfl rfl rfl

/-- C6: a missing resource yields NotFound for every caller: an
update/delete aimed at an absent project, an absent board, or a board
whose owning project is absent, is 404, never 403. -/
theorem missingResourceNotFound (st : FStore) (u : User) (pid bid : String) :
    (st.getProject pid = Except.ok none →
      projectModifyDecision st u pid = Decision.notFound) ∧
    (st.getBoard bid = Except.ok none →
      boardModifyDecision st u bid = Decision.notFound) ∧
    (∀ b : Board, st.getBoard bid = Except.ok (some b) →
      st.getProject b.projectId = Except.ok none →
      boardModifyDecision st u bid = Decision.notFound) := by
  refine ⟨fun h => ?_, fun h => ?_, fun b hb hp => ?_⟩
  · simp [projectModifyDecision, requireProjectAccess, h, runHandler]
  · simp [boardModifyDecision, requireBoardAccess, h, runHandler]
  · simp [boardModifyDecision, requireBoardAccess, hb, hp, runHandler]

/-- Witness for C6, exercised by the admin Dave: an unknown project id,
an unknown board id, and a board with a dangling project reference all
give NotFound. -/
theorem missingResourceNotFoundWitness :
    projectModifyDecision exampleStore.toF userDave "zzz" = Decision.notFound ∧
    boardModifyDecision exampleStore.toF userDave "zzz" = Decision.notFound ∧
    boardModifyDecision danglingStore.toF userDave "b2" = Decision.notFound :=
  ⟨(missingResourceNotFound exampleStore.toF userDave "zzz" "zzz").1 rfl,
   (missingResourceNotFound exampleStore.toF userDave "zzz" "zzz").2.1 rfl,
   (missingResourceNotFound danglingStore.toF userDave "zzz" "b2").2.2
     boardDangling rfl rfl⟩

/-- C7: a thrown storage lookup makes every protected operation answer
the 500-equivalent `evaluationFailed` — never Allow, Deny or NotFound
(those are distinct constructors of `Decision`): shown for all ten
modelled operations when the lookup that opens their resolution chain
throws (project lookup for the six project-level operations, board
lookup for the three board-level ones, task lookup for task modify),
and for a thrown membership lookup reached mid-evaluation. -/
theorem storageFailureIsEvaluationFailed (st : FStore) (u : User)
    (pid bid tid : String) :
    (st.getProject pid = Except.error () →
      projectReadDecision st u pid = Decision.evaluationFailed ∧
      projectModifyDecision st u pid = Decision.evaluationFailed ∧
      boardsListDecision st u pid = Decision.evaluationFailed ∧
      boardCreateDecision st u pid = Decision.evaluationFailed ∧
      membersListDecision st u pid = Decision.evaluationFailed ∧
      memberManageDecision st u pid = Decision.evaluationFailed) ∧
    (st.getBoard bid = Except.error () →
      boardModifyDecision st u bid = Decision.evaluationFailed ∧
      tasksListDecision st u bid = Decision.evaluationFailed ∧
      taskCreateDecision st u bid = Decision.evaluationFailed) ∧
    (st.getTask tid = Except.error () →
      taskModifyDecision st u tid = Decision.evaluationFailed) ∧
    (∀ p : Project, st.getProject pid = Except.ok (some p) →
      u.role ≠ GlobalRole.admin → u.id ≠ p.ownerId →
      st.getProjectMembers pid = Except.error () →
      projectModifyDecision st u pid = Decision.evaluationFailed) := by
  refine ⟨fun h => ⟨?_, ?_, ?_, ?_, ?_, ?_⟩, fun h => ⟨?_, ?_, ?_⟩,
    fun h => ?_, fun p hp hadm hown hm => ?_⟩
  · simp [projectReadDecision, requireProjectAccess, h, runHandler]
  · simp [projectModifyDecision, requireProjectAccess, h, runHandler]
  · simp [boardsListDecision, requireProjectAccess, h, runHandler]
  · simp [boardCreateDecision, requireProjectMembershipForCreation, h,
      runHandler]
  · simp [membersListDecision, requireProjectAccess, h, runHandler]
  · simp [memberManageDecision, h, runHandler]
  · simp [boardModifyDecision, requireBoardAccess, h, runHandler]
  · simp [tasksListDecision, requireBoardAccess, h, runHandler]
  · simp [taskCreateDecision, requireBoardAccess, h, runHandler]
  · simp [taskModifyDecision, requireTaskModifyAccess, h, runHandler]
  · simp [projectModifyDecision, requireProjectAccess, hp, hadm, hown, hm,
      runHandler]

/-- Witness for C7: on the all-throwing storage every one of the ten
protected operations is a 500, and on the storage whose membership
lookup throws the non-owner non-admin Mallory also gets a 500. -/
theorem storageFailureWitness :
    projectReadDecision failingStore userMallory "p1" =
      Decision.evaluationFailed ∧
    projectModifyDecision failingStore userMallory "p1" =
      Decision.evaluationFailed ∧
    boardsListDecision failingStore userMallory "p1" =
      Decision.evaluationFailed ∧
    boardCreateDecision failingStore userMallory "p1" =
      Decision.evaluationFailed ∧
    membersListDecision failingStore userMallory "p1" =
      Decision.evaluationFailed ∧
    memberManageDecision failingStore userMallory "p1" =
      Decision.evaluationFailed ∧
    boardModifyDecision failingStore userMallory "b1" =
      Decision.evaluationFailed ∧
    tasksListDecision failingStore userMallory "b1" =
      Decision.evaluationFailed ∧
    taskCreateDecision failingStore userMallory "b1" =
      Decision.evaluationFailed ∧
    taskModifyDecision failingStore userMallory "t1" =
      Decision.evaluationFailed ∧
    projectModifyDecision failingMembersStore userMallory "p1" =
      Decision.evaluationFailed := by
  have hall := (storageFailureIsEvaluationFailed failingStore userMallory
    "p1" "b1" "t1").1 rfl
  have hboard := (storageFailureIsEvaluationFailed failingStore userMallory
    "p1" "b1" "t1").2.1 rfl
  refine ⟨hall.1, hall.2.1, hall.2.2.1, hall.2.2.2.1, hall.2.2.2.2.1,
    hall.2.2.2.2.2, hboard.1, hboard.2.1, hboard.2.2,
    (storageFailureIsEvaluationFailed failingStore userMallory
      "p1" "b1" "t1").2.2.1 rfl,
    (storageFailureIsEvaluationFailed failingMembersStore userMallory
      "p1" "b1" "t1").2.2.2 projectP1 rfl (by decide) (by decide) rfl⟩

/-- C8: `initializeAdmin` creates the admin account (role admin, with
the salted hash-dot-salt password format) when no user carries the
well-known admin email, changes nothing when one does, and running it
twice — even with fresh hash material — equals running it once. -/
theorem initializeAdminIdempotent (g1 x1 sa1 g2 x2 sa2 : String)
    (us : List User) :
    (getUserByEmail us adminEmail = none →
      initializeAdmin g1 x1 sa1 us = us ++ [adminUser g1 x1 sa1]) ∧
    (∀ u0, getUserByEmail us adminEmail = some u0 →
      initializeAdmin g1 x1 sa1 us = us) ∧
    (adminUser g1 x1 sa1).role = GlobalRole.admin ∧
    (adminUser g1 x1 sa1).email = adminEmail ∧
    (adminUser g1 x1 sa1).password = x1 ++ "." ++ sa1 ∧
    initializeAdmin g2 x2 sa2 (initializeAdmin g1 x1 sa1 us) =
      initializeAdmin g1 x1 sa1 us := by
  refine ⟨fun h => ?_, fun u0 h => ?_, rfl, rfl, rfl, ?_⟩
  · simp [initializeAdmin, h, createUser, adminUser]
  · simp [initializeAdmin, h]
  · rcases h : getUserByEmail us adminEmail with _ | u0
    · have hstep : initializeAdmin g1 x1 sa1 us = us ++ [adminUser g1 x1 sa1] := by
        simp [initializeAdmin, h, createUser, adminUser]
      have hfound : getUserByEmail (us ++ [adminUser g1 x1 sa1]) adminEmail =
          some (adminUser g1 x1 sa1) := by
        have hn : us.find? (fun u => decide (u.email = adminEmail)) = none := h
        simp [getUserByEmail, List.find?_append, hn, adminUser]
      rw [hstep]
      simp [initializeAdmin, hfound]
    · have hstep : initializeAdmin g1 x1 sa1 us = us := by
        simp [initializeAdmin, h]
      rw [hstep]
      simp [initializeAdmin, h]

/-- Witness for C8: from an empty user table the first run creates
exactly the admin row, and a second run with different hash material
changes nothing. -/
theorem initializeAdminIdempotentWitness :
    initializeAdmin "id1" "hex1" "salt1" [] = [adminUser "id1" "hex1" "salt1"] ∧
    initializeAdmin "id2" "hex2" "salt2"
        (initializeAdmin "id1" "hex1" "salt1" []) =
      initializeAdmin "id1" "hex1" "salt1" [] :=
  ⟨by
    have h := (initializeAdminIdempotent "id1" "hex1" "salt1"
      "id2" "hex2" "salt2" []).1 (by decide)
    simpa using h,
   (initializeAdminIdempotent "id1" "hex1" "salt1"
      "id2" "hex2" "salt2" []).2.2.2.2.2⟩

/-- C9: whatever `ownerId` a POST /api/projects body carries, the
stored project has the id of the authenticated caller as owner. -/
theorem projectOwnerNotSpoofable (u : User) (b : ProjectBody)
    (genId : String) (q : Project)
    (h : postProjectStored u b genId = some q) : q.ownerId = u.id := by
  rcases hn : b.name with _ | n
  · simp [postProjectStored, parseInsertProject, projectBodyWithOwner, hn] at h
  · simp [postProjectStored, parseInsertProject, projectBodyWithOwner, hn,
      mkProject] at h
    rw [← h]

/-- A request body attempting to set Mallory as project owner. -/
def spoofProjectBody : ProjectBody :=
  { name := some "Site", description := none, ownerId := some "mallory"
    color := none }

/-- Witness for C9: Alice posts a body claiming Mallory as owner; the
stored project is owned by Alice. -/
theorem projectOwnerNotSpoofableWitness :
    postProjectStored userAlice spoofProjectBody "gp1" =
      some { id := "gp1", name := "Site", description := none,
             ownerId := "alice", color := "#8B5CF6" } ∧
    ({ id := "gp1", name := "Site", description := none, ownerId := "alice",
       color := "#8B5CF6" } : Project).ownerId = userAlice.id :=
  ⟨by decide,
   projectOwnerNotSpoofable userAlice spoofProjectBody "gp1"
     { id := "gp1", name := "Site", description := none, ownerId := "alice",
       color := "#8B5CF6" } (by decide)⟩

/-- C10: whatever `createdById` (or `boardId`) a POST tasks body
carries, the stored task records the authenticated caller as creator
and the boardId of the URL. -/
theorem taskCreatorNotSpoofable (u : User) (boardId : String)
    (b : TaskBody) (genId : String) (t : Task)
    (h : postTaskStored u boardId b genId = some t) :
    t.createdById = u.id ∧ t.boardId = boardId := by
  rcases hn : b.title with _ | n
  · simp [postTaskStored, parseInsertTask, taskBodyWithServerFields, hn] at h
  · simp [postTaskStored, parseInsertTask, taskBodyWithServerFields, hn,
      mkTask] at h
    rw [← h]
    exact ⟨rfl, rfl⟩

/-- A request body attempting to set Mallory as task creator. -/
def spoofTaskBody : TaskBody :=
  { title := some "Fix", description := none, boardId := some "elsewhere"
    assigneeId := none, createdById := some "mallory", position := none }

/-- Witness for C10: Bob posts on board b1 a body claiming Mallory as
creator and another board; the stored task records Bob and b1. -/
theorem taskCreatorNotSpoofableWitness :
    postTaskStored userBob "b1" spoofTaskBody "gt1" =
      some { id := "gt1", title := "Fix", description := none, boardId := "b1",
             assigneeId := none, createdById := "bob", position := 0 } ∧
    ({ id := "gt1", title := "Fix", description := none, boardId := "b1",
       assigneeId := none, createdById := "bob", position := 0 } : Task).createdById =
      userBob.id ∧
    ({ id := "gt1", title := "Fix", description := none, boardId := "b1",
       assigneeId := none, createdById := "bob", position := 0 } : Task).boardId =
      "b1" :=
  ⟨by decide,
   taskCreatorNotSpoofable userBob "b1" spoofTaskBody "gt1"
     { id := "gt1", title := "Fix", description := none, boardId := "b1",
       assigneeId := none, createdById := "bob", position := 0 } (by decide)⟩

end Encore
